import Mathlib

set_option autoImplicit false
set_option maxRecDepth 100000

/-!
Shallow embedding of `src/helpers/j2x.py`: the JSON-to-xattr writer.

Python strings are modelled as Lean `String`; the byte encoding used by
`str.encode()` is UTF-8, so the byte length of an encoded string is
`String.utf8ByteSize` while the character count of a decoded string is
`String.length`.  The operating-system extended-attribute store
(`os.setxattr` / `os.listxattr` / `os.getxattr`) is an external collaborator
of the program; it is modelled as an association list of name/value pairs
plus a list of "bad" names for which the store fails with an error other
than "already exists" (permission denied, attribute too large, unsupported
filesystem, ...), matching the error kinds of the spec's AttributeStore
contract.  `os.setxattr(..., flags=os.XATTR_CREATE)` fails with
`FileExistsError` when the name is already present and never overwrites.
-/

/-- Behavioral flags of the command line (the program's global `args`
object), restricted to the flags the write path reads: `archive`,
`lower_key`, `lower_value` and `empty_values`.  Output-only flags
(`verbose`, `quiet`) and flags handled outside the writer (`clear_first`,
`size`, the namespace string, which is passed as a parameter) are omitted. -/
structure Args where
  archive : Bool
  lower_key : Bool
  lower_value : Bool
  empty_values : Bool
deriving DecidableEq

mutual
/-- JSON values as produced by `json.load`: strings, numbers, booleans,
null, arrays and objects.  Numbers are modelled as integers (floating-point
literals are out of scope for the claims). -/
inductive JValue : Type where
  | str (s : String)
  | num (n : Int)
  | bool (b : Bool)
  | null
  | arr (xs : JArray)
  | obj (fs : JObject)

/-- A JSON array, as a mutually inductive list of `JValue`s. -/
inductive JArray : Type where
  | nil
  | cons (v : JValue) (rest : JArray)

/-- A JSON object, as a mutually inductive association list of string keys
to `JValue`s. -/
inductive JObject : Type where
  | nil
  | cons (k : String) (v : JValue) (rest : JObject)
end

/-- A single quote character as a string, used by the Python `repr` of
strings. -/
def sglq : String := "\x27"

mutual
/-- Python `repr()` of a JSON-decoded value, as used by `str()` on lists and
dictionaries: quotes around strings, `True` / `False` / `None`, decimal
digits for numbers, brackets with comma-separated element `repr`s for
lists, braces with comma-separated `key: value` pairs for dictionaries.
String escaping inside `repr` is not modelled (the strings in play contain
no quotes or escape characters). -/
def pyRepr : JValue → String
  | .str s => sglq ++ s ++ sglq
  | .num n => toString n
  | .bool true => "True"
  | .bool false => "False"
  | .null => "None"
  | .arr xs => "[" ++ pyReprArr xs ++ "]"
  | .obj fs => "\x7b" ++ pyReprObj fs ++ "\x7d"

/-- Comma-separated `repr`s of the elements of a JSON array. -/
def pyReprArr : JArray → String
  | .nil => ""
  | .cons v .nil => pyRepr v
  | .cons v (.cons w rest) => pyRepr v ++ ", " ++ pyReprArr (.cons w rest)

/-- Comma-separated `key: value` `repr`s of the fields of a JSON object. -/
def pyReprObj : JObject → String
  | .nil => ""
  | .cons k v .nil => sglq ++ k ++ sglq ++ ": " ++ pyRepr v
  | .cons k v (.cons k2 v2 rest) =>
      sglq ++ k ++ sglq ++ ": " ++ pyRepr v ++ ", " ++ pyReprObj (.cons k2 v2 rest)
end

/-- Python `str()` of a JSON-decoded value: the identity on strings,
`repr`-like rendering on everything else (`True`, `False`, `None`, digits,
bracketed lists, braced dictionaries). -/
def pyStr : JValue → String
  | .str s => s
  | v => pyRepr v

/-- Python truthiness test `not v`, negated: `pyFalsy v = true` exactly when
Python considers `v` falsy (empty string, zero, `False`, `None`, empty list,
empty dict). -/
def pyFalsy : JValue → Bool
  | .str s => s == ""
  | .num n => n == 0
  | .bool b => !b
  | .null => true
  | .arr .nil => true
  | .arr (.cons _ _) => false
  | .obj .nil => true
  | .obj (.cons _ _ _) => false

/-- Plain list of the key/value pairs of a JSON object, in source order, as
iterated by `data.items()` on a Python dictionary. -/
def JObject.items : JObject → List (String × JValue)
  | .nil => []
  | .cons k v rest => (k, v) :: rest.items

/-- The `written` / `total` accumulator of the writer: total bytes of
encoded attribute names (`keys`) and of encoded attribute values
(`values`). -/
structure WriteTally where
  keys : Nat
  values : Nat
deriving DecidableEq

/-- State of the target file's extended attributes.  `attrs` is the list of
stored name/value pairs, in creation order; values are the strings whose
UTF-8 encodings are the stored bytes (every value this program stores is
obtained by `str(...).encode()`).  `bad` models the names for which the
store fails with an error other than "already exists". -/
structure Store where
  attrs : List (String × String)
  bad : List String
deriving DecidableEq

/-- The attribute names currently present on the target, in creation
order. -/
def namesOf (s : Store) : List String :=
  s.attrs.map fun a => a.1

/-- Errors of the modelled attribute store: `eexist` is `FileExistsError`
from create-only `setxattr`; `eother` stands for every other `OSError`. -/
inductive SErr : Type where
  | eexist
  | eother (msg : String)
deriving DecidableEq

/-- Python exceptions that reach the embedded code: `unboundLocal` is
`UnboundLocalError`, `attrError` is `AttributeError`, `valueError` is the
`ValueError` raised on wrong input types, `osError` is a store-level
failure re-raised by the writer. -/
inductive PyErr : Type where
  | unboundLocal
  | attrError
  | valueError (msg : String)
  | osError (msg : String)
deriving DecidableEq

/-- Model of `os.setxattr(target, name, value, flags=os.XATTR_CREATE)`:
fails without modifying the store, either with a non-exists error when the
name is in the store's `bad` set, or with `FileExistsError` when the name
is already present; otherwise appends the new pair. -/
def setxattr (s : Store) (name val : String) : Except SErr Store :=
  if name ∈ s.bad then Except.error (SErr.eother "OSError")
  else if name ∈ namesOf s then Except.error SErr.eexist
  else Except.ok ⟨s.attrs ++ [(name, val)], s.bad⟩

/-- Python `str.strip()`: drop leading and trailing whitespace characters.
Modelled over the ASCII whitespace set of `Char.isWhitespace` (space, tab,
carriage return, newline); defined on the character list so that it
reduces by kernel computation. -/
def pyStrip (s : String) : String :=
  ⟨((s.data.dropWhile Char.isWhitespace).reverse.dropWhile Char.isWhitespace).reverse⟩

/-- Python `str.lower()`, modelled on the ASCII range (`Char.toLower` maps
`A`-`Z` to `a`-`z` and fixes everything else); defined on the character
list so that it reduces by kernel computation. -/
def pyLower (s : String) : String :=
  ⟨s.data.map Char.toLower⟩

/-- `clean_key` from the source: `str(key).strip()`, lowercased when the
global `args.archive` is off and `args.lower_key` is on.  Keys of a JSON
object are always strings, so `str(key)` is the identity. -/
def clean_key (args : Args) (key : String) : String :=
  let out := pyStrip key
  if !args.archive && args.lower_key then pyLower out else out

/-- `clean_value` from the source: `str(value).strip()`, lowercased when
the global `args.archive` is off and `args.lower_value` is on. -/
def clean_value (args : Args) (value : JValue) : String :=
  let out := pyStrip (pyStr value)
  if !args.archive && args.lower_value then pyLower out else out

/-- The `strkey` local of `write_xattr` after the archive branch: the raw
key when the `archive` parameter is set, `clean_key` of it otherwise. -/
def strkey_of (args : Args) (key : String) (archive : Bool) : String :=
  if archive then key else clean_key args key

/-- The string form of the `strval` local of `write_xattr`
(`str(strval)`): `str(value)` when the `archive` parameter is set,
`clean_value` (already a string) otherwise. -/
def strval_of (args : Args) (value : JValue) (archive : Bool) : String :=
  if archive then pyStr value else clean_value args value

/-- Truthiness of the `strval` local at the skip test `not strval`: in
archive mode `strval` is still the raw JSON value, so Python falsiness of
the raw value decides; otherwise `strval` is the cleaned string and the
test is emptiness. -/
def strval_falsy (args : Args) (value : JValue) (archive : Bool) : Bool :=
  if archive then pyFalsy value else clean_value args value == ""

/-- `write_xattr` from the source: normalize the pair (or keep it verbatim
in archive mode), skip falsy values unless `args.empty_values` is set,
compose the attribute name as namespace-string + key, encode, and create
the attribute.  `FileExistsError` is swallowed, returning a zero tally; any
other store error is re-raised.  On success the tally is the byte length of
the encoded name plus the byte length of the encoded value.  The store is
never modified on an error. -/
def write_xattr (args : Args) (s : Store) (key : String) (value : JValue)
    (pfx : String) (archive : Bool) : Except PyErr (Store × WriteTally) :=
  if strval_falsy args value archive && !args.empty_values then
    Except.ok (s, ⟨0, 0⟩)
  else
    match setxattr s (pfx ++ strkey_of args key archive) (strval_of args value archive) with
    | Except.ok s2 =>
        Except.ok (s2, ⟨(pfx ++ strkey_of args key archive).utf8ByteSize,
          (strval_of args value archive).utf8ByteSize⟩)
    | Except.error SErr.eexist => Except.ok (s, ⟨0, 0⟩)
    | Except.error (SErr.eother m) => Except.error (PyErr.osError m)

/-- The `for key, value in data.items()` loop of `write_xattrs_dict`,
threading the store, the `total` accumulator and the last per-pair result
`written` (absent before the first iteration).  An exception from
`write_xattr` is logged and re-raised unchanged, stopping the loop; the
store at that point is kept (attributes already created persist). -/
def writeLoop (args : Args) (pfx : String) (archive : Bool) :
    List (String × JValue) → Store → WriteTally → Option WriteTally →
    Store × Except PyErr (WriteTally × Option WriteTally)
  | [], s, total, written => (s, Except.ok (total, written))
  | (key, value) :: rest, s, total, _written =>
    match write_xattr args s key value pfx archive with
    | Except.ok (s2, w) =>
        writeLoop args pfx archive rest s2
          ⟨total.keys + w.keys, total.values + w.values⟩ (some w)
    | Except.error e => (s, Except.error e)

/-- `write_xattrs_dict` from the source: run the loop from a zero `total`;
afterwards the function returns the variable `written` — the tally of the
LAST pair processed — not `total`.  When the mapping is empty the loop body
never runs and `return written` raises `UnboundLocalError`. -/
def write_xattrs_dict (args : Args) (s : Store) (data : List (String × JValue))
    (pfx : String) (archive : Bool) : Store × Except PyErr WriteTally :=
  match writeLoop args pfx archive data s ⟨0, 0⟩ none with
  | (s2, Except.ok (_, some written)) => (s2, Except.ok written)
  | (s2, Except.ok (_, none)) => (s2, Except.error PyErr.unboundLocal)
  | (s2, Except.error e) => (s2, Except.error e)

/-- `write_xattrs_list` from the source: the `isinstance(data, list)` guard
passes (the argument is a list by construction), and the loop header
`for key, value in data.items()` immediately raises `AttributeError`
because Python lists have no `items` method — before any element is
examined and before any write happens. -/
def write_xattrs_list (_args : Args) (s : Store) (_data : JArray)
    (_pfx : String) (_archive : Bool) : Store × Except PyErr WriteTally :=
  (s, Except.error PyErr.attrError)

/-- `write_xattrs` from the source: dispatch on the runtime type of the
data — dictionaries to `write_xattrs_dict`, lists to `write_xattrs_list`,
anything else raises `ValueError`. -/
def write_xattrs (args : Args) (s : Store) (data : JValue)
    (pfx : String) (archive : Bool) : Store × Except PyErr WriteTally :=
  match data with
  | .obj fs => write_xattrs_dict args s fs.items pfx archive
  | .arr xs => write_xattrs_list args s xs pfx archive
  | _ => (s, Except.error (PyErr.valueError "data must be a dictionary or a list."))

/-- `os.listxattr(target)`: the stored attribute names, decoded to
strings. -/
def read_xattrs (s : Store) : List String :=
  namesOf s

/-- `os.getxattr(target, name).decode()`: the stored value for a name, as
the decoded string.  The names fed to it by `get_xattrs_size` always come
from `read_xattrs`, so the `none` fallback is unreachable there. -/
def getxattr (s : Store) (name : String) : String :=
  match s.attrs.find? (fun a => a.1 == name) with
  | some a => a.2
  | none => ""

/-- `get_xattrs_size` from the source: list the attribute names, read and
decode each value, and return `len("".join(xattrs + values))` — the number
of CHARACTERS of all names and decoded values joined together. -/
def get_xattrs_size (s : Store) : Nat :=
  (String.join (read_xattrs s ++ (read_xattrs s).map fun x => getxattr s x)).length

/-- Second definition for the size claim, following the spec's words: the
sum of the BYTE lengths of every attribute name plus the byte lengths of
every attribute value currently stored on the target. -/
def totalSize_spec (s : Store) : Nat :=
  (s.attrs.map fun a => a.1.utf8ByteSize).sum
    + (s.attrs.map fun a => a.2.utf8ByteSize).sum

/-! ### Helper lemmas -/

theorem foldl_append_length (l : List String) :
    ∀ a : String, (l.foldl (fun r s => r ++ s) a).length
      = a.length + (l.map String.length).sum := by
  induction l with
  | nil => intro a; simp
  | cons x xs ih =>
      intro a
      simp only [List.foldl_cons, List.map_cons, List.sum_cons]
      rw [ih, String.length_append]
      omega

theorem join_length (l : List String) :
    (String.join l).length = (l.map String.length).sum := by
  simpa [String.join] using foldl_append_length l ""

theorem write_xattr_ok_delta (args : Args) (s : Store) (key : String)
    (value : JValue) (pfx : String) (archive : Bool) (s2 : Store)
    (w : WriteTally)
    (h : write_xattr args s key value pfx archive = Except.ok (s2, w)) :
    s2.bad = s.bad ∧ ∃ d, s2.attrs = s.attrs ++ d
      ∧ w.keys = (d.map fun a => a.1.utf8ByteSize).sum
      ∧ w.values = (d.map fun a => a.2.utf8ByteSize).sum := by
  unfold write_xattr at h
  split at h
  · rw [Except.ok.injEq, Prod.mk.injEq] at h
    obtain ⟨rfl, rfl⟩ := h
    exact ⟨rfl, [], by simp, rfl, rfl⟩
  · split at h
    case _ s3 heq =>
      rw [Except.ok.injEq, Prod.mk.injEq] at h
      obtain ⟨rfl, rfl⟩ := h
      unfold setxattr at heq
      by_cases hb : pfx ++ strkey_of args key archive ∈ s.bad
      · rw [if_pos hb] at heq; cases heq
      · rw [if_neg hb] at heq
        by_cases hm : pfx ++ strkey_of args key archive ∈ namesOf s
        · rw [if_pos hm] at heq; cases heq
        · rw [if_neg hm] at heq
          rw [Except.ok.injEq] at heq
          subst heq
          exact ⟨rfl, [(pfx ++ strkey_of args key archive,
            strval_of args value archive)], rfl, by simp, by simp⟩
    case _ heq =>
      rw [Except.ok.injEq, Prod.mk.injEq] at h
      obtain ⟨rfl, rfl⟩ := h
      exact ⟨rfl, [], by simp, rfl, rfl⟩
    case _ m heq =>
      cases h

theorem write_xattr_present (args : Args) (s : Store) (key : String)
    (value : JValue) (pfx : String) (archive : Bool)
    (hmem : pfx ++ strkey_of args key archive ∈ namesOf s)
    (hbad : pfx ++ strkey_of args key archive ∉ s.bad) :
    write_xattr args s key value pfx archive = Except.ok (s, ⟨0, 0⟩) := by
  unfold write_xattr
  split
  · rfl
  · unfold setxattr
    rw [if_neg hbad, if_pos hmem]

theorem write_xattr_bad_nil (args : Args) (s : Store) (key : String)
    (value : JValue) (pfx : String) (archive : Bool) (hbad : s.bad = []) :
    ∃ s2 w, write_xattr args s key value pfx archive = Except.ok (s2, w)
      ∧ s2.bad = [] ∧ (∃ d, s2.attrs = s.attrs ++ d)
      ∧ ((strval_falsy args value archive && !args.empty_values) = false →
          pfx ++ strkey_of args key archive ∈ namesOf s2) := by
  unfold write_xattr
  split
  case _ hcond =>
    exact ⟨s, ⟨0, 0⟩, rfl, hbad, ⟨[], by simp⟩,
      fun hc => absurd hcond (by simp [hc])⟩
  case _ hcond =>
    unfold setxattr
    rw [hbad, if_neg (List.not_mem_nil _)]
    by_cases hmem : pfx ++ strkey_of args key archive ∈ namesOf s
    · rw [if_pos hmem]
      exact ⟨s, ⟨0, 0⟩, rfl, hbad, ⟨[], by simp⟩, fun _ => hmem⟩
    · rw [if_neg hmem]
      exact ⟨⟨s.attrs ++ [(pfx ++ strkey_of args key archive,
          strval_of args value archive)], []⟩,
        ⟨(pfx ++ strkey_of args key archive).utf8ByteSize,
          (strval_of args value archive).utf8ByteSize⟩,
        rfl, rfl,
        ⟨[(pfx ++ strkey_of args key archive,
          strval_of args value archive)], rfl⟩,
        fun _ => by simp [namesOf]⟩

theorem writeLoop_append (args : Args) (pfx : String) (archive : Bool)
    (pre rest : List (String × JValue)) :
    ∀ (s : Store) (t : WriteTally) (l : Option WriteTally),
    writeLoop args pfx archive (pre ++ rest) s t l
      = match writeLoop args pfx archive pre s t l with
        | (s1, Except.ok (t1, l1)) => writeLoop args pfx archive rest s1 t1 l1
        | (s1, Except.error e) => (s1, Except.error e) := by
  induction pre with
  | nil => intro s t l; rfl
  | cons p ps ih =>
      intro s t l
      obtain ⟨key, value⟩ := p
      simp only [List.cons_append, writeLoop]
      cases hw : write_xattr args s key value pfx archive with
      | ok sw =>
          obtain ⟨s2, w⟩ := sw
          exact ih s2 ⟨t.keys + w.keys, t.values + w.values⟩ (some w)
      | error e => rfl

theorem writeLoop_append_ok (args : Args) (pfx : String) (archive : Bool)
    (pre rest : List (String × JValue)) (s s1 : Store) (t : WriteTally)
    (l : Option WriteTally) (t1 : WriteTally) (l1 : Option WriteTally)
    (h : writeLoop args pfx archive pre s t l = (s1, Except.ok (t1, l1))) :
    writeLoop args pfx archive (pre ++ rest) s t l
      = writeLoop args pfx archive rest s1 t1 l1 := by
  rw [writeLoop_append args pfx archive pre rest s t l, h]

theorem writeLoop_total (args : Args) (pfx : String) (archive : Bool) :
    ∀ (data : List (String × JValue)) (s : Store) (t0 : WriteTally)
      (l0 : Option WriteTally) (s2 : Store) (t : WriteTally)
      (l : Option WriteTally),
    writeLoop args pfx archive data s t0 l0 = (s2, Except.ok (t, l)) →
    s2.bad = s.bad ∧ ∃ d, s2.attrs = s.attrs ++ d
      ∧ t.keys = t0.keys + (d.map fun a => a.1.utf8ByteSize).sum
      ∧ t.values = t0.values + (d.map fun a => a.2.utf8ByteSize).sum := by
  intro data
  induction data with
  | nil =>
      intro s t0 l0 s2 t l h
      rw [writeLoop, Prod.mk.injEq, Except.ok.injEq, Prod.mk.injEq] at h
      obtain ⟨rfl, rfl, rfl⟩ := h
      exact ⟨rfl, [], by simp, by simp, by simp⟩
  | cons p ps ih =>
      intro s t0 l0 s2 t l h
      obtain ⟨key, value⟩ := p
      rw [writeLoop] at h
      cases hw : write_xattr args s key value pfx archive with
      | ok sw =>
          obtain ⟨s1, w⟩ := sw
          rw [hw] at h
          obtain ⟨hbad1, d1, hat1, hk1, hv1⟩ :=
            write_xattr_ok_delta args s key value pfx archive s1 w hw
          obtain ⟨hbad2, d2, hat2, hk2, hv2⟩ :=
            ih s1 ⟨t0.keys + w.keys, t0.values + w.values⟩ (some w) s2 t l h
          refine ⟨hbad2.trans hbad1, d1 ++ d2, ?_, ?_, ?_⟩
          · rw [hat2, hat1, List.append_assoc]
          · rw [hk2]
            simp only [List.map_append, List.sum_append, hk1]
            omega
          · rw [hv2]
            simp only [List.map_append, List.sum_append, hv1]
            omega
      | error e =>
          rw [hw] at h
          simp at h

theorem writeLoop_bad_nil (args : Args) (pfx : String) (archive : Bool) :
    ∀ (data : List (String × JValue)) (s : Store) (t0 : WriteTally)
      (l0 : Option WriteTally), s.bad = [] →
    ∃ s2 t l, writeLoop args pfx archive data s t0 l0 = (s2, Except.ok (t, l))
      ∧ s2.bad = [] ∧ (∃ d, s2.attrs = s.attrs ++ d)
      ∧ (∀ p ∈ data, strval_falsy args p.2 archive = false →
          pfx ++ strkey_of args p.1 archive ∈ namesOf s2)
      ∧ (data = [] → l = l0) ∧ (data ≠ [] → ∃ w, l = some w) := by
  intro data
  induction data with
  | nil =>
      intro s t0 l0 hbad
      exact ⟨s, t0, l0, rfl, hbad, ⟨[], by simp⟩, by simp,
        fun _ => rfl, fun h => absurd rfl h⟩
  | cons p ps ih =>
      intro s t0 l0 hbad
      obtain ⟨key, value⟩ := p
      obtain ⟨s1, w, hw, hbad1, ⟨d1, hat1⟩, hmem1⟩ :=
        write_xattr_bad_nil args s key value pfx archive hbad
      obtain ⟨s2, t, l, hloop, hbad2, ⟨d2, hat2⟩, hmemrest, hl0, hlsome⟩ :=
        ih s1 ⟨t0.keys + w.keys, t0.values + w.values⟩ (some w) hbad1
      refine ⟨s2, t, l, ?_, hbad2, ⟨d1 ++ d2, by rw [hat2, hat1, List.append_assoc]⟩,
        ?_, by simp, fun _ => ?_⟩
      · rw [writeLoop, hw]
        exact hloop
      · intro q hq hfal
        rcases List.mem_cons.mp hq with hq | hq
        · -- q is the head pair
          subst hq
          have hm1 : pfx ++ strkey_of args key archive ∈ namesOf s1 := by
            apply hmem1
            have hv : strval_falsy args value archive = false := by
              simpa using hfal
            simp [hv]
          have hnm : namesOf s2 = namesOf s1 ++ d2.map (fun a => a.1) := by
            unfold namesOf
            rw [hat2, List.map_append]
          rw [hnm]
          exact List.mem_append_left _ hm1
        · -- q is in the tail
          exact hmemrest q hq hfal
      · rcases ps with _ | ⟨q, qs⟩
        · exact ⟨w, hl0 rfl⟩
        · exact hlsome (List.cons_ne_nil q qs)

theorem writeLoop_all_present (args : Args) (pfx : String) (archive : Bool) :
    ∀ (data : List (String × JValue)) (s : Store) (t : WriteTally)
      (l : Option WriteTally), s.bad = [] →
    (∀ p ∈ data, pfx ++ strkey_of args p.1 archive ∈ namesOf s) →
    ∃ l2, writeLoop args pfx archive data s t l = (s, Except.ok (t, l2))
      ∧ (data = [] → l2 = l) ∧ (data ≠ [] → l2 = some ⟨0, 0⟩) := by
  intro data
  induction data with
  | nil =>
      intro s t l _ _
      exact ⟨l, rfl, fun _ => rfl, fun h => absurd rfl h⟩
  | cons p ps ih =>
      intro s t l hbad hall
      obtain ⟨key, value⟩ := p
      have hw : write_xattr args s key value pfx archive
          = Except.ok (s, ⟨0, 0⟩) := by
        apply write_xattr_present
        · exact hall (key, value) (List.mem_cons_self _ _)
        · rw [hbad]; exact List.not_mem_nil _
      obtain ⟨l2, hloop, hl0, hlsome⟩ :=
        ih s t (some ⟨0, 0⟩) hbad
          (fun q hq => hall q (List.mem_cons_of_mem _ hq))
      refine ⟨l2, ?_, by simp, fun _ => ?_⟩
      · rw [writeLoop, hw]
        exact hloop
      · rcases ps with _ | ⟨q, qs⟩
        · exact hl0 rfl
        · exact hlsome (List.cons_ne_nil q qs)

/-! ### Claim theorems -/

/-- Claim C1, counterexample: on the two-pair mapping
`[k1 = v1, k2 = v2]` against a fresh target, both pairs are written (14
bytes of encoded names, 4 bytes of encoded values), yet `write_xattrs_dict`
returns the tally of the LAST pair only, `keys = 7` and `values = 2` —
not the sums the claim asserts. -/
theorem write_xattrs_dict_return_cex :
    write_xattrs_dict ⟨false, false, false, false⟩ ⟨[], []⟩
        [("k1", JValue.str "v1"), ("k2", JValue.str "v2")] "user." false
      = (⟨[("user.k1", "v1"), ("user.k2", "v2")], []⟩, Except.ok ⟨7, 2⟩)
    ∧ (([("user.k1", "v1"), ("user.k2", "v2")] : List (String × String)).map
        fun a => a.1.utf8ByteSize).sum = 14
    ∧ (7 : Nat) ≠ 14 :=
  ⟨rfl, rfl, by decide⟩

/-- Claim C1, amended: the byte-accounting law holds of the internal
`total` accumulator of `write_xattrs_dict`, not of its return value: when
the iteration completes, the accumulator's `keys` field equals the sum of
the encoded attribute-name byte lengths over every pair actually written
(the attributes appended to the store), and its `values` field the sum of
the encoded value byte lengths; the function however returns the per-pair
tally of the last pair processed. -/
theorem write_xattrs_dict_total_law (args : Args) (pfx : String)
    (archive : Bool) (data : List (String × JValue)) (s s2 : Store)
    (t : WriteTally) (l : Option WriteTally)
    (h : writeLoop args pfx archive data s ⟨0, 0⟩ none
      = (s2, Except.ok (t, l))) :
    t.keys = ((s2.attrs.drop s.attrs.length).map
        fun a => a.1.utf8ByteSize).sum
    ∧ t.values = ((s2.attrs.drop s.attrs.length).map
        fun a => a.2.utf8ByteSize).sum := by
  obtain ⟨-, d, hat, hk, hv⟩ :=
    writeLoop_total args pfx archive data s ⟨0, 0⟩ none s2 t l h
  rw [hat, List.drop_left]
  constructor
  · simpa using hk
  · simpa using hv

/-- Claim C1, witness for the amended theorem at a concrete one-pair run. -/
theorem write_xattrs_dict_total_law_witness :
    (⟨7, 2⟩ : WriteTally).keys
      = (((⟨[("user.k1", "v1")], []⟩ : Store).attrs.drop
          (⟨[], []⟩ : Store).attrs.length).map fun a => a.1.utf8ByteSize).sum
    ∧ (⟨7, 2⟩ : WriteTally).values
      = (((⟨[("user.k1", "v1")], []⟩ : Store).attrs.drop
          (⟨[], []⟩ : Store).attrs.length).map fun a => a.2.utf8ByteSize).sum :=
  write_xattrs_dict_total_law ⟨false, false, false, false⟩ "user." false
    [("k1", JValue.str "v1")] ⟨[], []⟩ ⟨[("user.k1", "v1")], []⟩
    ⟨7, 2⟩ (some ⟨7, 2⟩) rfl

/-- Claim C2: when the composed attribute name is already present on the
target (and the store does not fail with an unrelated error on that name),
`write_xattr` swallows the `FileExistsError`, returns a zero tally and
leaves the store — including the existing attribute's stored value —
unchanged. -/
theorem write_xattr_already_exists (args : Args) (s : Store) (key : String)
    (value : JValue) (pfx : String) (archive : Bool)
    (hmem : pfx ++ strkey_of args key archive ∈ namesOf s)
    (hbad : pfx ++ strkey_of args key archive ∉ s.bad) :
    write_xattr args s key value pfx archive = Except.ok (s, ⟨0, 0⟩) :=
  write_xattr_present args s key value pfx archive hmem hbad

/-- Claim C2, witness: re-writing `k1` (with a different value `v2`) on a
target that already has `user.k1 = v1` yields a zero tally and an unchanged
store. -/
theorem write_xattr_already_exists_witness :
    write_xattr ⟨false, false, false, false⟩ ⟨[("user.k1", "v1")], []⟩ "k1"
        (JValue.str "v2") "user." false
      = Except.ok (⟨[("user.k1", "v1")], []⟩, ⟨0, 0⟩) :=
  write_xattr_already_exists ⟨false, false, false, false⟩
    ⟨[("user.k1", "v1")], []⟩ "k1" (JValue.str "v2") "user." false
    (by decide) (by decide)

/-- Claim C3: when the value normalizes to the empty string (the raw value
is the empty string in archive mode, or `clean_value` of it is empty
otherwise) and the write-empty-values option is disabled, `write_xattr`
skips the pair entirely: zero tally, no attribute written, no error. -/
theorem write_xattr_skip_empty (args : Args) (s : Store) (key : String)
    (value : JValue) (pfx : String) (archive : Bool)
    (hev : args.empty_values = false)
    (harc : archive = true → value = JValue.str "")
    (hcln : archive = false → clean_value args value = "") :
    write_xattr args s key value pfx archive = Except.ok (s, ⟨0, 0⟩) := by
  have hskip : (strval_falsy args value archive && !args.empty_values)
      = true := by
    rw [hev]
    cases archive
    · simp [strval_falsy, hcln rfl]
    · simp [strval_falsy, harc rfl, pyFalsy]
  unfold write_xattr
  simp [hskip]

/-- Claim C3, witness: a value of whitespace only normalizes to the empty
string and is skipped on a fresh target. -/
theorem write_xattr_skip_empty_witness :
    write_xattr ⟨false, false, false, false⟩ ⟨[], []⟩ "k1"
        (JValue.str "  ") "user." false
      = Except.ok (⟨[], []⟩, ⟨0, 0⟩) :=
  write_xattr_skip_empty ⟨false, false, false, false⟩ ⟨[], []⟩ "k1"
    (JValue.str "  ") "user." false rfl
    (fun h => absurd h (by decide)) (fun _ => rfl)

/-- Claim C4: with the archive parameter enabled, a string pair with a
non-empty value is stored verbatim — attribute name `pfx ++ key`, stored
value exactly the given string (no strip, no lowercasing) — and the tally
is the byte length of the encoded name and value; the lowercase flags of
`args` are quantified over and thus irrelevant. -/
theorem write_xattr_archive_verbatim (args : Args) (s : Store)
    (key sval pfx : String) (hne : sval ≠ "")
    (hmem : (pfx ++ key) ∉ namesOf s) (hbad : (pfx ++ key) ∉ s.bad) :
    write_xattr args s key (JValue.str sval) pfx true
      = Except.ok (⟨s.attrs ++ [(pfx ++ key, sval)], s.bad⟩,
          ⟨(pfx ++ key).utf8ByteSize, sval.utf8ByteSize⟩) := by
  have hfal : strval_falsy args (JValue.str sval) true = false := by
    simp [strval_falsy, pyFalsy, hne]
  have hkey : strkey_of args key true = key := rfl
  have hval : strval_of args (JValue.str sval) true = sval := rfl
  unfold write_xattr setxattr
  rw [hkey, hval,
    if_neg (show ¬ ((strval_falsy args (JValue.str sval) true
      && !args.empty_values) = true) from by simp [hfal]),
    if_neg hbad, if_neg hmem]

/-- Claim C4, witness: with both lowercase flags set and archive mode on,
the key `K1` and the value `" V1 "` (with spaces and capitals) are stored
byte-identical. -/
theorem write_xattr_archive_verbatim_witness :
    write_xattr ⟨true, true, true, false⟩ ⟨[], []⟩ "K1"
        (JValue.str " V1 ") "user." true
      = Except.ok (⟨[("user.K1", " V1 ")], []⟩, ⟨7, 4⟩) :=
  write_xattr_archive_verbatim ⟨true, true, true, false⟩ ⟨[], []⟩
    "K1" " V1 " "user." (by decide) (by decide) (by decide)

/-- Claim C5, counterexample: the empty mapping vacuously satisfies the
claim's value condition, yet running `write_xattrs_dict` on the fresh
target raises `UnboundLocalError` while leaving the store unchanged — and
therefore the second run, from the identical state, surfaces the same
error to the caller, contradicting the claim. -/
theorem write_xattrs_dict_twice_empty_cex :
    write_xattrs_dict ⟨false, false, false, false⟩ ⟨[], []⟩ [] "user." false
      = (⟨[], []⟩, Except.error PyErr.unboundLocal) := rfl

/-- Claim C5, amended: for every NON-EMPTY mapping whose values all
normalize to non-empty (truthy) values, writing it twice against an
initially attribute-free, non-failing target is idempotent in outcome: the
second run returns successfully (with a zero tally for its last pair) and
leaves the attribute set exactly as the first run left it. -/
theorem write_xattrs_dict_idem (args : Args) (pfx : String) (archive : Bool)
    (data : List (String × JValue)) (hne : data ≠ [])
    (hv : ∀ p ∈ data, strval_falsy args p.2 archive = false) :
    ∃ s1 w1, write_xattrs_dict args ⟨[], []⟩ data pfx archive
        = (s1, Except.ok w1)
      ∧ write_xattrs_dict args s1 data pfx archive
        = (s1, Except.ok ⟨0, 0⟩) := by
  obtain ⟨s1, t, l, hloop, hbad1, -, hmem, hl0, hlsome⟩ :=
    writeLoop_bad_nil args pfx archive data ⟨[], []⟩ ⟨0, 0⟩ none rfl
  obtain ⟨w, rfl⟩ := hlsome hne
  refine ⟨s1, w, ?_, ?_⟩
  · unfold write_xattrs_dict
    rw [hloop]
  · have hall : ∀ p ∈ data,
        pfx ++ strkey_of args p.1 archive ∈ namesOf s1 :=
      fun p hp => hmem p hp (hv p hp)
    obtain ⟨l2, hloop2, hl02, hlsome2⟩ :=
      writeLoop_all_present args pfx archive data s1 ⟨0, 0⟩ none hbad1 hall
    unfold write_xattrs_dict
    rw [hloop2, hlsome2 hne]

/-- Claim C5, witness for the amended theorem at a concrete one-pair
mapping. -/
theorem write_xattrs_dict_idem_witness :
    ∃ s1 w1, write_xattrs_dict ⟨false, false, false, false⟩ ⟨[], []⟩
        [("k1", JValue.str "v1")] "user." false = (s1, Except.ok w1)
      ∧ write_xattrs_dict ⟨false, false, false, false⟩ s1
          [("k1", JValue.str "v1")] "user." false
        = (s1, Except.ok ⟨0, 0⟩) :=
  write_xattrs_dict_idem ⟨false, false, false, false⟩ "user." false
    [("k1", JValue.str "v1")] (List.cons_ne_nil _ _) (by decide)

/-- Claim C6, counterexample: on a target holding one attribute
`user.k = é` (the value is two UTF-8 bytes but one character),
`get_xattrs_size` returns 7 — the number of characters of the decoded
strings — while the byte total the claim asserts is 8. -/
theorem get_xattrs_size_bytes_cex :
    get_xattrs_size ⟨[("user.k", "é")], []⟩ = 7
    ∧ totalSize_spec ⟨[("user.k", "é")], []⟩ = 8
    ∧ (7 : Nat) ≠ 8 :=
  ⟨rfl, rfl, by decide⟩

/-- Claim C6, amended: `get_xattrs_size` returns the total number of
CHARACTERS (Unicode code points) of all attribute names plus all decoded
attribute values on the target — which coincides with the byte total only
when every name and value is single-byte (ASCII). -/
theorem get_xattrs_size_char_count (s : Store) :
    get_xattrs_size s = ((read_xattrs s).map String.length).sum
      + ((read_xattrs s).map fun x => (getxattr s x).length).sum := by
  unfold get_xattrs_size
  rw [join_length, List.map_append, List.sum_append, List.map_map]
  rfl

/-- Claim C7: if, part-way through a mapping, a single-pair write fails
with an error other than the already-exists condition, `write_xattrs_dict`
re-raises that very error, processes none of the remaining pairs, and the
resulting store is exactly the store after the successful prefix — the
attributes already written persist. -/
theorem write_xattrs_dict_fail_fast (args : Args) (pfx : String)
    (archive : Bool) (pre post : List (String × JValue)) (key : String)
    (value : JValue) (s0 s1 : Store) (t : WriteTally)
    (l : Option WriteTally) (e : PyErr)
    (h1 : writeLoop args pfx archive pre s0 ⟨0, 0⟩ none
      = (s1, Except.ok (t, l)))
    (h2 : write_xattr args s1 key value pfx archive = Except.error e) :
    write_xattrs_dict args s0 (pre ++ (key, value) :: post) pfx archive
      = (s1, Except.error e) := by
  have hx : writeLoop args pfx archive ((key, value) :: post) s1 t l
      = (s1, Except.error e) := by
    simp only [writeLoop]
    rw [h2]
  unfold write_xattrs_dict
  rw [writeLoop_append_ok args pfx archive pre ((key, value) :: post)
    s0 s1 ⟨0, 0⟩ none t l h1, hx]

/-- Claim C7, witness: `k1` succeeds, the store then fails on `user.k2`
with an OS error, the error is surfaced, `k3` is never processed, and
`user.k1` remains on the target. -/
theorem write_xattrs_dict_fail_fast_witness :
    write_xattrs_dict ⟨false, false, false, false⟩ ⟨[], ["user.k2"]⟩
        ([("k1", JValue.str "v1")]
          ++ ("k2", JValue.str "v2") :: [("k3", JValue.str "v3")])
        "user." false
      = (⟨[("user.k1", "v1")], ["user.k2"]⟩,
          Except.error (PyErr.osError "OSError")) :=
  write_xattrs_dict_fail_fast ⟨false, false, false, false⟩ "user." false
    [("k1", JValue.str "v1")] [("k3", JValue.str "v3")]
    "k2" (JValue.str "v2") ⟨[], ["user.k2"]⟩
    ⟨[("user.k1", "v1")], ["user.k2"]⟩ ⟨7, 2⟩ (some ⟨7, 2⟩)
    (PyErr.osError "OSError") rfl rfl

/-- Claim C8, counterexample: for a list input — even a list whose single
item is itself a two-element (key/value-like) list — `write_xattrs`
dispatches to `write_xattrs_list`, which raises `AttributeError` at the
loop header (`data.items()` does not exist on lists) before any item's
pair could be passed to `write_xattr`; no attribute is written. -/
theorem write_xattrs_list_cex :
    write_xattrs ⟨false, false, false, false⟩ ⟨[], []⟩
        (JValue.arr (JArray.cons
          (JValue.arr (JArray.cons (JValue.str "k1")
            (JArray.cons (JValue.str "v1") JArray.nil)))
          JArray.nil))
        "user." false
      = (⟨[], []⟩, Except.error PyErr.attrError) := rfl

/-- Claim C8, amended: for every list input, `write_xattrs` dispatches to
`write_xattrs_list`, which raises `AttributeError` before any per-pair
write occurs and leaves the store unchanged. -/
theorem write_xattrs_list_attr_error (args : Args) (s : Store) (xs : JArray)
    (pfx : String) (archive : Bool) :
    write_xattrs args s (JValue.arr xs) pfx archive
      = (s, Except.error PyErr.attrError) := rfl

/-- Claim C9: on the empty mapping, `write_xattrs_dict` does not return a
zero tally: the loop never assigns the result variable `written`, so
`return written` raises `UnboundLocalError`; no attribute is written (the
store is returned unchanged). -/
theorem write_xattrs_dict_empty_raises (args : Args) (s : Store)
    (pfx : String) (archive : Bool) :
    write_xattrs_dict args s [] pfx archive
      = (s, Except.error PyErr.unboundLocal) := rfl

/-- Claim C10: in archive mode with write-empty-values disabled, a pair
whose RAW value is Python-falsy is skipped — zero tally, no attribute, no
error — even when its stringified form is a non-empty string (for example
the JSON number 0, whose string form is `0`). -/
theorem write_xattr_archive_falsy_skip (args : Args) (s : Store)
    (key : String) (value : JValue) (pfx : String)
    (hev : args.empty_values = false) (hfal : pyFalsy value = true)
    (_hstr : pyStr value ≠ "") :
    write_xattr args s key value pfx true = Except.ok (s, ⟨0, 0⟩) := by
  have hskip : (strval_falsy args value true && !args.empty_values)
      = true := by
    simp [strval_falsy, hfal, hev]
  unfold write_xattr
  simp [hskip]

/-- Claim C10, witness: the JSON number 0 is falsy, its string form `0` is
non-empty, and in archive mode the pair is skipped on a fresh target. -/
theorem write_xattr_archive_falsy_skip_witness :
    write_xattr ⟨true, false, false, false⟩ ⟨[], []⟩ "k1" (JValue.num 0)
        "user." true
      = Except.ok (⟨[], []⟩, ⟨0, 0⟩) :=
  write_xattr_archive_falsy_skip ⟨true, false, false, false⟩ ⟨[], []⟩ "k1"
    (JValue.num 0) "user." rfl rfl
    (by simp only [pyStr, pyRepr]; decide)
